import Mathlib

/-!
Verification of the Calendarr service (index.js): ingestion pipeline
(fetch with retries, ICS normalization, lookup-then-insert/update
reconciliation against the `events` table) and the `/events.json`
read endpoint (parameter validation, range scan, result cache).

The reconciliation pass is embedded twice.  `reconcile` is the per-record
abstraction: a left fold where each record's `db.get` lookup is followed
at once by its `UPDATE` or `INSERT`.  `reconcileBatch` is the pass with
the source's actual dispatch order: the synchronous `forEach` issues every
lookup of the batch before any callback runs, so all lookups observe the
pre-pass table, and only then do the callbacks apply their writes in batch
order.  The two agree on batches whose records have pairwise-distinct
identity keys; on a batch with an internal duplicate key they differ, and
`reconcileBatch` is the authority (see the C1 counterexample).
-/

namespace Calendarr

/-- A row of the `events` table: surrogate `id` (AUTOINCREMENT) plus the
six data columns, all TEXT. -/
structure Row where
  id : Nat
  title : String
  start : String
  «end» : String
  color : String
  description : String
  location : String
  deriving Repr, DecidableEq

/-- A normalized event record as built in `fetchAndStoreEvents` before
reconciliation (no surrogate id yet). -/
structure EventRecord where
  title : String
  start : String
  «end» : String
  color : String
  description : String
  location : String
  deriving Repr, DecidableEq

/-- The `WHERE title = ? AND start = ? AND end = ?` predicate shared by the
lookup, the update and nothing else. -/
def matchesKey (r : Row) (t s e : String) : Bool :=
  r.title == t && r.start == s && r.«end» == e

/-- The identity key of a stored row. -/
def rowKey (r : Row) : String × String × String :=
  (r.title, r.start, r.«end»)

/-- The identity key of a normalized record. -/
def eventKey (ev : EventRecord) : String × String × String :=
  (ev.title, ev.start, ev.«end»)

/-- `db.get('SELECT * FROM events WHERE title = ? AND start = ? AND end = ?')`:
first row matching the identity key, if any. -/
def dbGet (rows : List Row) (t s e : String) : Option Row :=
  rows.find? (fun r => matchesKey r t s e)

/-- `UPDATE events SET color = ? WHERE title = ? AND start = ? AND end = ?`:
set `color` on every row matching the key, leave all other columns and all
other rows untouched. -/
def runUpdate (rows : List Row) (c t s e : String) : List Row :=
  rows.map (fun r => if matchesKey r t s e then { r with color := c } else r)

/-- Build the row an `INSERT INTO events (title, start, end, color,
description, location)` creates, with the next AUTOINCREMENT id. -/
def mkRow (i : Nat) (ev : EventRecord) : Row :=
  { id := i, title := ev.title, start := ev.start, «end» := ev.«end»,
    color := ev.color, description := ev.description, location := ev.location }

/-- The `events` table together with the AUTOINCREMENT counter. -/
structure Storage where
  rows : List Row
  nextId : Nat
  deriving Repr, DecidableEq

/-- One iteration of the `events.forEach` body: `db.get` lookup by identity
key, then `stmtUpdate.run(color, ...)` when a row was found, else
`stmtInsert.run(...)`. -/
def reconcileStep (s : Storage) (ev : EventRecord) : Storage :=
  match dbGet s.rows ev.title ev.start ev.«end» with
  | some _ =>
      { s with rows := runUpdate s.rows ev.color ev.title ev.start ev.«end» }
  | none =>
      { rows := s.rows ++ [mkRow s.nextId ev], nextId := s.nextId + 1 }

/-- The per-record abstraction of the reconciliation pass: each record's
lookup immediately followed by its write.  Faithful per record; for the
whole pass the dispatch-ordered `reconcileBatch` below is the authority,
and the two coincide on batches with pairwise-distinct identity keys. -/
def reconcile (s : Storage) (events : List EventRecord) : Storage :=
  events.foldl reconcileStep s

/-- One lookup callback's write, given whether its `db.get` (dispatched
earlier) found a row: `stmtUpdate.run(color, ...)` when found, else
`stmtInsert.run(...)`. -/
def reconcileWrite (s : Storage) (found : Bool) (ev : EventRecord) :
    Storage :=
  if found then
    { s with rows := runUpdate s.rows ev.color ev.title ev.start ev.«end» }
  else
    { rows := s.rows ++ [mkRow s.nextId ev], nextId := s.nextId + 1 }

/-- The callbacks of a pass running in queue order, each applying its
write to the table as left by the callbacks before it. -/
def applyWrites (s : Storage) (ops : List (Bool × EventRecord)) : Storage :=
  ops.foldl (fun acc op => reconcileWrite acc op.1 op.2) s

/-- The lookups the synchronous `forEach` dispatches: every record's
`db.get` executes against the pre-pass table, before any callback has
written. -/
def batchLookups (s : Storage) (events : List EventRecord) :
    List (Bool × EventRecord) :=
  events.map
    (fun ev => ((dbGet s.rows ev.title ev.start ev.«end»).isSome, ev))

/-- The reconciliation pass of `fetchAndStoreEvents` in the source's
dispatch order: all lookups against the pre-pass table first, then the
callback writes in batch order. -/
def reconcileBatch (s : Storage) (events : List EventRecord) : Storage :=
  applyWrites s (batchLookups s events)

/-- The reconciliation pass with its `pendingOperations` bookkeeping.
`pendingOperations` starts at `events.length`; the synchronous
post-`forEach` check runs before any lookup callback has decremented it,
so its finalize branch fires exactly when the batch is empty
(first Bool).  Each callback then decrements the counter and finalizes
when it reaches zero (second Bool). -/
def reconcilePass (s : Storage) (events : List EventRecord) :
    Storage × Bool × Bool :=
  let postLoopFinalized := decide (events.length = 0)
  let r := events.foldl
    (fun acc ev =>
      (reconcileStep acc.1 ev, acc.2.1 - 1, acc.2.2 || decide (acc.2.1 - 1 = 0)))
    (s, events.length, false)
  (r.1, postLoopFinalized, r.2.2)

/-- An iCalendar `vevent` component as read through ical.js: summary,
canonical string forms of the start/end instants, and the optional
STATUS/DESCRIPTION/LOCATION properties (`none` when absent). -/
structure VEvent where
  summary : String
  startDate : String
  endDate : String
  status : Option String
  description : Option String
  location : Option String
  deriving Repr, DecidableEq

/-- Normalization of one `vevent` in `fetchAndStoreEvents`: bracketed
source label plus a space prepended to the summary, `color` green exactly
for STATUS `CONFIRMED` (red otherwise, including absent), description and
location defaulted to the empty string when absent. -/
def normalizeEvent (label : String) (v : VEvent) : EventRecord :=
  { title := "[" ++ label ++ "] " ++ v.summary
  , start := v.startDate
  , «end» := v.endDate
  , color := if v.status == some "CONFIRMED" then "green" else "red"
  , description := v.description.getD ""
  , location := v.location.getD "" }

/-- The retry loop body of `fetchWithRetries`, at a given attempt number:
try the network (`net attempt`), return the data on success; on failure
retry while `attempt < retries`, else throw the exhaustion error.  The
10-second inter-attempt delay has no observable effect on the result and
is not modelled. -/
def fetchAttempt (net : Nat → Except String String) (url : String)
    (retries : Nat) (attempt : Nat) : Except String String :=
  match net attempt with
  | .ok d => .ok d
  | .error _ =>
      if h : attempt < retries then
        fetchAttempt net url retries (attempt + 1)
      else
        .error ("Failed to fetch data from " ++ url ++ " after "
          ++ toString retries ++ " attempts")
termination_by retries - attempt
decreasing_by omega

/-- `fetchWithRetries(url, retries = 3)`: start the loop at attempt 1. -/
def fetchWithRetries (net : Nat → Except String String) (url : String)
    (retries : Nat := 3) : Except String String :=
  fetchAttempt net url retries 1

/-- `ICAL.parse` of a fetched document followed by normalization and
reconciliation; a `ParseError` aborts the pass before any write. -/
def ingestDocument (label : String)
    (parse : String → Except String (List VEvent)) (icsData : String)
    (s : Storage) : Storage :=
  match parse icsData with
  | .error _ => s
  | .ok vevents => reconcile s (vevents.map (normalizeEvent label))

/-- `fetchAndStoreEvents(url, prefix)`: fetch with retries, parse the ICS
document, normalize every `vevent`, reconcile the batch against storage.
Any thrown error (fetch exhaustion or parse failure) is caught by the
surrounding try/catch and logged, leaving storage unchanged.  `net` is the
upstream (attempt number to transport result) and `parse` the ICS parser
(document to list of vevent components or a parse error). -/
def fetchAndStoreEvents (net : Nat → Except String String) (url : String)
    (label : String) (parse : String → Except String (List VEvent))
    (s : Storage) : Storage :=
  match fetchWithRetries net url 3 with
  | .error _ => s
  | .ok icsData => ingestDocument label parse icsData s

/-- The startup pass: `fetchAndStoreEvents(SONARR_ICS, 'Sonarr')` awaited,
then `fetchAndStoreEvents(RADARR_ICS, 'Radarr')`. -/
def startupRun (netS netR : Nat → Except String String) (urlS urlR : String)
    (parse : String → Except String (List VEvent)) (s : Storage) : Storage :=
  fetchAndStoreEvents netR urlR "Radarr" parse
    (fetchAndStoreEvents netS urlS "Sonarr" parse s)

/-- The node-cache instance: association list from cache key to a stored
result set, an entry being present exactly while its TTL has not expired. -/
abbrev Cache : Type := List (String × List Row)

/-- `cache.get(key)`. -/
def cacheGet (c : Cache) (k : String) : Option (List Row) :=
  (List.find? (fun p => p.1 == k) c).map (fun p => p.2)

/-- `cache.set(key, rows)`: the new entry shadows any older one. -/
def cacheSet (c : Cache) (k : String) (v : List Row) : Cache :=
  (k, v) :: c

/-- JavaScript truthiness of an optional query parameter: `!start` is true
when the parameter is absent or the empty string. -/
def truthyParam : Option String → Bool
  | none => false
  | some s => !(s == "")

/-- Lexicographic order on character lists, by code point: the order
SQLite's BINARY collation gives TEXT values (UTF-8 bytes compare in the
same order as code points). -/
def charListLe : List Char → List Char → Bool
  | [], _ => true
  | _ :: _, [] => false
  | x :: xs, y :: ys =>
      if x < y then true else if y < x then false else charListLe xs ys

/-- String comparison as SQLite performs it on TEXT columns. -/
def strLe (a b : String) : Bool :=
  charListLe a.data b.data

/-- `SELECT * FROM events WHERE start >= ? AND end <= ?` with parameters
`[start, end]`: TEXT columns compare lexicographically. -/
def queryScan (rows : List Row) (qstart qend : String) : List Row :=
  rows.filter (fun r => strLe qstart r.start && strLe r.«end» qend)

/-- The HTTP response of the `/events.json` handler. -/
inductive Response where
  | ok (rows : List Row)
  | badRequest (error : String)
  deriving Repr, DecidableEq

/-- HTTP status code of a response. -/
def Response.status : Response → Nat
  | .ok _ => 200
  | .badRequest _ => 400

/-- Outcome of one `/events.json` request: the response, the cache after
the request, whether `db.all` ran, and the `events` table after the
request (the handler only reads it). -/
structure HandlerResult where
  response : Response
  cache : Cache
  storageAccessed : Bool
  rowsAfter : List Row
  deriving DecidableEq

/-- The `GET /events.json` handler: 400 when either parameter is missing
or empty, otherwise serve the cached result for `start ++ "_" ++ end`
when present, otherwise scan storage, cache the rows, and return them. -/
def handleEvents (qstart qend : Option String) (c : Cache)
    (rows : List Row) : HandlerResult :=
  if truthyParam qstart && truthyParam qend then
    let st := qstart.getD ""
    let en := qend.getD ""
    let key := st ++ "_" ++ en
    match cacheGet c key with
    | some cached =>
        { response := .ok cached, cache := c, storageAccessed := false,
          rowsAfter := rows }
    | none =>
        let result := queryScan rows st en
        { response := .ok result, cache := cacheSet c key result,
          storageAccessed := true, rowsAfter := rows }
  else
    { response := .badRequest "Start and end query parameters are required",
      cache := c, storageAccessed := false, rowsAfter := rows }

/-- Whether some stored row matches the identity key `(t, s, e)`. -/
def keyPresent (rows : List Row) (t s e : String) : Bool :=
  rows.any (fun r => matchesKey r t s e)

/-- No two stored rows share an identity key. -/
def DupFreeKeys (rows : List Row) : Prop :=
  rows.Pairwise (fun r r' => rowKey r ≠ rowKey r')

/-- `r'` agrees with `r` on every column except possibly `color`, the
surrogate `id` included. -/
def sameExceptColor (r' r : Row) : Prop :=
  r'.id = r.id ∧ r'.title = r.title ∧ r'.start = r.start ∧
    r'.«end» = r.«end» ∧ r'.description = r.description ∧
    r'.location = r.location

theorem matchesKey_iff (r : Row) (t s e : String) :
    matchesKey r t s e = true ↔ r.title = t ∧ r.start = s ∧ r.«end» = e := by
  simp [matchesKey, and_assoc]

theorem rowKey_eq_iff (r : Row) (t s e : String) :
    rowKey r = (t, s, e) ↔ matchesKey r t s e = true := by
  simp [rowKey, matchesKey, Prod.ext_iff, and_assoc]

theorem updateRow_matchesKey (r : Row) (c t s e u v w : String) :
    matchesKey (if matchesKey r t s e then { r with color := c } else r) u v w
      = matchesKey r u v w := by
  split <;> rfl

theorem updateRow_rowKey (r : Row) (c t s e : String) :
    rowKey (if matchesKey r t s e then { r with color := c } else r)
      = rowKey r := by
  split <;> rfl

theorem runUpdate_length (rows : List Row) (c t s e : String) :
    (runUpdate rows c t s e).length = rows.length := by
  simp [runUpdate]

theorem runUpdate_getElem (rows : List Row) (c t s e : String) (i : Nat) :
    (runUpdate rows c t s e)[i]? = rows[i]?.map
      (fun r => if matchesKey r t s e then { r with color := c } else r) := by
  simp [runUpdate]

theorem keyPresent_runUpdate (rows : List Row) (c t s e u v w : String) :
    keyPresent (runUpdate rows c t s e) u v w = keyPresent rows u v w := by
  simp only [keyPresent, runUpdate, List.any_map]
  congr 1
  funext r
  simp only [Function.comp]
  exact updateRow_matchesKey r c t s e u v w

theorem dbGet_isSome_iff (rows : List Row) (t s e : String) :
    (dbGet rows t s e).isSome = true ↔ keyPresent rows t s e = true := by
  simp [dbGet, keyPresent, List.find?_isSome, List.any_eq_true]

theorem dbGet_eq_none_iff (rows : List Row) (t s e : String) :
    dbGet rows t s e = none ↔ keyPresent rows t s e = false := by
  simp [dbGet, keyPresent, List.find?_eq_none, List.any_eq_false]

theorem mkRow_matchesKey (i : Nat) (ev : EventRecord) (t a b : String) :
    matchesKey (mkRow i ev) t a b = true ↔ eventKey ev = (t, a, b) :=
  ⟨fun h => (rowKey_eq_iff (mkRow i ev) t a b).mpr h,
   fun h => (rowKey_eq_iff (mkRow i ev) t a b).mp h⟩

theorem keyPresent_append_one (rows : List Row) (x : Row) (t a b : String) :
    keyPresent (rows ++ [x]) t a b
      = (keyPresent rows t a b || matchesKey x t a b) := by
  unfold keyPresent
  rw [List.any_append]
  simp

theorem keyPresent_reconcileWrite_mono (s : Storage) (f : Bool)
    (ev : EventRecord) (t a b : String)
    (h : keyPresent s.rows t a b = true) :
    keyPresent (reconcileWrite s f ev).rows t a b = true := by
  cases f with
  | true =>
      show keyPresent (runUpdate s.rows ev.color ev.title ev.start ev.«end»)
        t a b = true
      rw [keyPresent_runUpdate]
      exact h
  | false =>
      show keyPresent (s.rows ++ [mkRow s.nextId ev]) t a b = true
      rw [keyPresent_append_one, h]
      rfl

theorem keyPresent_reconcileWrite_self (s : Storage) (ev : EventRecord) :
    keyPresent (reconcileWrite s false ev).rows ev.title ev.start ev.«end»
      = true := by
  show keyPresent (s.rows ++ [mkRow s.nextId ev]) ev.title ev.start ev.«end»
    = true
  rw [keyPresent_append_one,
    (mkRow_matchesKey s.nextId ev ev.title ev.start ev.«end»).mpr rfl,
    Bool.or_true]

theorem reconcileWrite_true_length (s : Storage) (ev : EventRecord) :
    (reconcileWrite s true ev).rows.length = s.rows.length := by
  show (runUpdate s.rows ev.color ev.title ev.start ev.«end»).length
    = s.rows.length
  exact runUpdate_length s.rows ev.color ev.title ev.start ev.«end»

theorem keyPresent_applyWrites (s : Storage)
    (ops : List (Bool × EventRecord)) (t a b : String)
    (h : keyPresent s.rows t a b = true) :
    keyPresent (applyWrites s ops).rows t a b = true := by
  induction ops generalizing s with
  | nil => exact h
  | cons o rest ih =>
      exact ih (reconcileWrite s o.1 o.2)
        (keyPresent_reconcileWrite_mono s o.1 o.2 t a b h)

theorem applyWrites_all_present (s : Storage)
    (ops : List (Bool × EventRecord))
    (h : ∀ op ∈ ops, op.1 = true →
      keyPresent s.rows op.2.title op.2.start op.2.«end» = true) :
    ∀ op ∈ ops,
      keyPresent (applyWrites s ops).rows op.2.title op.2.start op.2.«end»
        = true := by
  induction ops generalizing s with
  | nil =>
      intro op hop
      cases hop
  | cons o rest ih =>
      intro op hop
      cases hop with
      | head =>
          show keyPresent
            (applyWrites (reconcileWrite s o.1 o.2) rest).rows
            o.2.title o.2.start o.2.«end» = true
          apply keyPresent_applyWrites
          cases hf : o.1 with
          | true =>
              have hp := h o (List.mem_cons_self o rest) hf
              exact keyPresent_reconcileWrite_mono s true o.2 _ _ _ hp
          | false =>
              exact keyPresent_reconcileWrite_self s o.2
      | tail _ hmem =>
          exact ih (reconcileWrite s o.1 o.2)
            (fun op' hop' hflag =>
              keyPresent_reconcileWrite_mono s o.1 o.2 _ _ _
                (h op' (List.mem_cons_of_mem o hop') hflag))
            op hmem

theorem applyWrites_length_all_true (s : Storage)
    (ops : List (Bool × EventRecord)) (h : ∀ op ∈ ops, op.1 = true) :
    (applyWrites s ops).rows.length = s.rows.length := by
  induction ops generalizing s with
  | nil => rfl
  | cons o rest ih =>
      have hf := h o (List.mem_cons_self o rest)
      show (applyWrites (reconcileWrite s o.1 o.2) rest).rows.length
        = s.rows.length
      rw [ih (reconcileWrite s o.1 o.2)
        (fun op hm => h op (List.mem_cons_of_mem o hm)), hf]
      exact reconcileWrite_true_length s o.2

theorem reconcileBatch_keys_present (s : Storage) (b : List EventRecord)
    (ev : EventRecord) (h : ev ∈ b) :
    keyPresent (reconcileBatch s b).rows ev.title ev.start ev.«end»
      = true := by
  have hmem : ((dbGet s.rows ev.title ev.start ev.«end»).isSome, ev)
      ∈ batchLookups s b := List.mem_map_of_mem _ h
  refine applyWrites_all_present s (batchLookups s b) ?_ _ hmem
  intro op hop hflag
  obtain ⟨ev', hev', rfl⟩ := List.mem_map.mp hop
  exact (dbGet_isSome_iff s.rows ev'.title ev'.start ev'.«end»).mp hflag

theorem reconcileBatch_length_of_all_present (s : Storage)
    (b : List EventRecord)
    (h : ∀ ev ∈ b, keyPresent s.rows ev.title ev.start ev.«end» = true) :
    (reconcileBatch s b).rows.length = s.rows.length := by
  show (applyWrites s (batchLookups s b)).rows.length = s.rows.length
  apply applyWrites_length_all_true
  intro op hop
  obtain ⟨ev, hev, rfl⟩ := List.mem_map.mp hop
  exact (dbGet_isSome_iff s.rows ev.title ev.start ev.«end»).mpr (h ev hev)

theorem dupFree_reconcileWrite_true (s : Storage) (ev : EventRecord)
    (h : DupFreeKeys s.rows) :
    DupFreeKeys (reconcileWrite s true ev).rows := by
  show DupFreeKeys (runUpdate s.rows ev.color ev.title ev.start ev.«end»)
  unfold DupFreeKeys runUpdate at *
  rw [List.pairwise_map]
  refine h.imp ?_
  intro a b hab
  rw [updateRow_rowKey, updateRow_rowKey]
  exact hab

theorem dupFree_reconcileWrite_false (s : Storage) (ev : EventRecord)
    (h : DupFreeKeys s.rows)
    (habs : keyPresent s.rows ev.title ev.start ev.«end» = false) :
    DupFreeKeys (reconcileWrite s false ev).rows := by
  show DupFreeKeys (s.rows ++ [mkRow s.nextId ev])
  unfold DupFreeKeys at *
  rw [List.pairwise_append]
  refine ⟨h, List.pairwise_singleton _ _, ?_⟩
  intro a ha x hx
  rw [List.mem_singleton] at hx
  subst hx
  intro hkey
  have hmatch : matchesKey a ev.title ev.start ev.«end» = true := by
    rw [← rowKey_eq_iff, hkey]
    rfl
  have hpres : keyPresent s.rows ev.title ev.start ev.«end» = true := by
    unfold keyPresent
    rw [List.any_eq_true]
    exact ⟨a, ha, hmatch⟩
  rw [habs] at hpres
  cases hpres

theorem applyWrites_dupFree (s : Storage) (ops : List (Bool × EventRecord))
    (hs : DupFreeKeys s.rows)
    (habs : ∀ op ∈ ops, op.1 = false →
      keyPresent s.rows op.2.title op.2.start op.2.«end» = false)
    (hdist : ops.Pairwise (fun o1 o2 => eventKey o1.2 ≠ eventKey o2.2)) :
    DupFreeKeys (applyWrites s ops).rows := by
  induction ops generalizing s with
  | nil => exact hs
  | cons o rest ih =>
      rw [List.pairwise_cons] at hdist
      show DupFreeKeys (applyWrites (reconcileWrite s o.1 o.2) rest).rows
      cases hf : o.1 with
      | true =>
          refine ih (reconcileWrite s true o.2)
            (dupFree_reconcileWrite_true s o.2 hs) ?_ hdist.2
          intro op hop hflag
          show keyPresent
            (runUpdate s.rows o.2.color o.2.title o.2.start o.2.«end»)
            op.2.title op.2.start op.2.«end» = false
          rw [keyPresent_runUpdate]
          exact habs op (List.mem_cons_of_mem o hop) hflag
      | false =>
          have habs0 := habs o (List.mem_cons_self o rest) hf
          refine ih (reconcileWrite s false o.2)
            (dupFree_reconcileWrite_false s o.2 hs habs0) ?_ hdist.2
          intro op hop hflag
          have h1 := habs op (List.mem_cons_of_mem o hop) hflag
          have hne := hdist.1 op hop
          show keyPresent (s.rows ++ [mkRow s.nextId o.2])
            op.2.title op.2.start op.2.«end» = false
          rw [keyPresent_append_one, h1]
          have hmk : matchesKey (mkRow s.nextId o.2)
              op.2.title op.2.start op.2.«end» = false := by
            cases hcase : matchesKey (mkRow s.nextId o.2)
                op.2.title op.2.start op.2.«end» with
            | false => rfl
            | true =>
                exact (hne ((mkRow_matchesKey s.nextId o.2
                  op.2.title op.2.start op.2.«end»).mp hcase)).elim
          rw [hmk]
          rfl

theorem reconcileBatch_dupFree (s : Storage) (b : List EventRecord)
    (hb : b.Pairwise fun e1 e2 => eventKey e1 ≠ eventKey e2)
    (hs : DupFreeKeys s.rows) :
    DupFreeKeys (reconcileBatch s b).rows := by
  show DupFreeKeys (applyWrites s (batchLookups s b)).rows
  refine applyWrites_dupFree s (batchLookups s b) hs ?_ ?_
  · intro op hop hflag
    obtain ⟨ev, hev, rfl⟩ := List.mem_map.mp hop
    cases hkp : keyPresent s.rows ev.title ev.start ev.«end» with
    | false => rfl
    | true =>
        have hsome := (dbGet_isSome_iff s.rows ev.title ev.start
          ev.«end»).mpr hkp
        have hflag2 : (dbGet s.rows ev.title ev.start ev.«end»).isSome
            = false := hflag
        rw [hflag2] at hsome
        exact Bool.noConfusion hsome
  · unfold batchLookups
    rw [List.pairwise_map]
    exact hb

theorem sameExceptColor_refl (r : Row) : sameExceptColor r r :=
  ⟨rfl, rfl, rfl, rfl, rfl, rfl⟩

theorem sameExceptColor_trans {a b c : Row} (h1 : sameExceptColor a b)
    (h2 : sameExceptColor b c) : sameExceptColor a c := by
  obtain ⟨x1, x2, x3, x4, x5, x6⟩ := h1
  obtain ⟨y1, y2, y3, y4, y5, y6⟩ := h2
  exact ⟨x1.trans y1, x2.trans y2, x3.trans y3, x4.trans y4,
    x5.trans y5, x6.trans y6⟩

theorem reconcileStep_preserves (s : Storage) (ev : EventRecord) (i : Nat)
    (r : Row) (h : s.rows[i]? = some r) :
    ∃ r', (reconcileStep s ev).rows[i]? = some r' ∧ sameExceptColor r' r := by
  cases hg : dbGet s.rows ev.title ev.start ev.«end» with
  | some r2 =>
      simp only [reconcileStep, hg]
      rw [runUpdate_getElem, h]
      refine ⟨_, rfl, ?_⟩
      by_cases hm : matchesKey r ev.title ev.start ev.«end» = true <;>
        simp [hm, sameExceptColor]
  | none =>
      simp only [reconcileStep, hg]
      have hlt : i < s.rows.length := by
        obtain ⟨hl, _⟩ := List.getElem?_eq_some.mp h
        exact hl
      rw [List.getElem?_append, if_pos hlt, h]
      exact ⟨r, rfl, sameExceptColor_refl r⟩

theorem reconcile_preserves (s : Storage) (evs : List EventRecord) (i : Nat)
    (r : Row) (h : s.rows[i]? = some r) :
    ∃ r', (reconcile s evs).rows[i]? = some r' ∧ sameExceptColor r' r := by
  induction evs generalizing s r with
  | nil => exact ⟨r, h, sameExceptColor_refl r⟩
  | cons e rest ih =>
      obtain ⟨r1, h1, hs1⟩ := reconcileStep_preserves s e i r h
      obtain ⟨r2, h2, hs2⟩ := ih (reconcileStep s e) r1 h1
      exact ⟨r2, h2, sameExceptColor_trans hs2 hs1⟩

theorem cacheGet_cacheSet_self (c : Cache) (k : String) (v : List Row) :
    cacheGet (cacheSet c k v) k = some v := by
  unfold cacheGet cacheSet
  rw [List.find?_cons_of_pos _ (by simp)]
  rfl

theorem handleEvents_hit (qs qe : String) (c : Cache) (rows v : List Row)
    (hs : qs ≠ "") (he : qe ≠ "")
    (h : cacheGet c (qs ++ "_" ++ qe) = some v) :
    handleEvents (some qs) (some qe) c rows =
      { response := .ok v, cache := c, storageAccessed := false,
        rowsAfter := rows } := by
  have hcond : (truthyParam (some qs) && truthyParam (some qe)) = true := by
    simp [truthyParam, hs, he]
  simp only [handleEvents, hcond, if_true, Option.getD_some, h]

theorem handleEvents_miss (qs qe : String) (c : Cache) (rows : List Row)
    (hs : qs ≠ "") (he : qe ≠ "")
    (h : cacheGet c (qs ++ "_" ++ qe) = none) :
    handleEvents (some qs) (some qe) c rows =
      { response := .ok (queryScan rows qs qe),
        cache := cacheSet c (qs ++ "_" ++ qe) (queryScan rows qs qe),
        storageAccessed := true, rowsAfter := rows } := by
  have hcond : (truthyParam (some qs) && truthyParam (some qe)) = true := by
    simp [truthyParam, hs, he]
  simp only [handleEvents, hcond, if_true, Option.getD_some, h]

theorem handleEvents_rowsAfter (qs qe : Option String) (c : Cache)
    (rows : List Row) : (handleEvents qs qe c rows).rowsAfter = rows := by
  unfold handleEvents
  split
  · dsimp only
    split <;> rfl
  · rfl

theorem fetchAttempt_ok (net : Nat → Except String String) (url : String)
    (retries attempt : Nat) (d : String) (h : net attempt = .ok d) :
    fetchAttempt net url retries attempt = .ok d := by
  unfold fetchAttempt
  rw [h]

theorem fetchAttempt_retry (net : Nat → Except String String) (url : String)
    (retries attempt : Nat) (e : String) (h : net attempt = .error e)
    (hlt : attempt < retries) :
    fetchAttempt net url retries attempt
      = fetchAttempt net url retries (attempt + 1) := by
  conv_lhs => unfold fetchAttempt
  rw [h, dif_pos hlt]

theorem fetchAttempt_exhaust (net : Nat → Except String String) (url : String)
    (retries attempt : Nat) (e : String) (h : net attempt = .error e)
    (hge : ¬ attempt < retries) :
    fetchAttempt net url retries attempt
      = .error ("Failed to fetch data from " ++ url ++ " after "
          ++ toString retries ++ " attempts") := by
  unfold fetchAttempt
  rw [h, dif_neg hge]

/-- C5: normalization of each event component: title is the bracketed
source label, a space, and the summary; start and end are the canonical
strings of the instants; color is green exactly when STATUS is CONFIRMED
and red in every other case, an absent STATUS included; description and
location are the upstream values, or the empty string when absent. -/
theorem normalizeEvent_fields (label : String) (v : VEvent) :
    (normalizeEvent label v).title = "[" ++ label ++ "] " ++ v.summary ∧
    (normalizeEvent label v).start = v.startDate ∧
    (normalizeEvent label v).«end» = v.endDate ∧
    ((normalizeEvent label v).color = "green" ↔ v.status = some "CONFIRMED") ∧
    (v.status ≠ some "CONFIRMED" → (normalizeEvent label v).color = "red") ∧
    (∀ d, v.description = some d → (normalizeEvent label v).description = d) ∧
    (v.description = none → (normalizeEvent label v).description = "") ∧
    (∀ l, v.location = some l → (normalizeEvent label v).location = l) ∧
    (v.location = none → (normalizeEvent label v).location = "") := by
  refine ⟨rfl, rfl, rfl, ?_, ?_, ?_, ?_, ?_, ?_⟩
  · constructor
    · intro hcol
      by_contra hne
      have hb : (v.status == some "CONFIRMED") = false := by
        simpa using hne
      simp [normalizeEvent, hb] at hcol
    · intro hstat
      simp [normalizeEvent, hstat]
  · intro hne
    have hb : (v.status == some "CONFIRMED") = false := by
      simpa using hne
    simp [normalizeEvent, hb]
  · intro d hd
    simp [normalizeEvent, hd]
  · intro hd
    simp [normalizeEvent, hd]
  · intro l hl
    simp [normalizeEvent, hl]
  · intro hl
    simp [normalizeEvent, hl]

theorem normalizeEvent_fields_witness :
    (normalizeEvent "Sonarr"
        ⟨"Show S01E01", "2024-01-01T10:00", "2024-01-01T11:00",
          some "CONFIRMED", some "an episode", none⟩).title
      = "[Sonarr] Show S01E01" ∧
    (normalizeEvent "Sonarr"
        ⟨"Show S01E01", "2024-01-01T10:00", "2024-01-01T11:00",
          some "CONFIRMED", some "an episode", none⟩).color = "green" ∧
    (normalizeEvent "Sonarr"
        ⟨"Show S01E01", "2024-01-01T10:00", "2024-01-01T11:00",
          some "CONFIRMED", some "an episode", none⟩).description
      = "an episode" ∧
    (normalizeEvent "Sonarr"
        ⟨"Show S01E01", "2024-01-01T10:00", "2024-01-01T11:00",
          some "CONFIRMED", some "an episode", none⟩).location = "" := by
  obtain ⟨h1, h2, h3, h4, h5, h6, h7, h8, h9⟩ :=
    normalizeEvent_fields "Sonarr"
      ⟨"Show S01E01", "2024-01-01T10:00", "2024-01-01T11:00",
        some "CONFIRMED", some "an episode", none⟩
  exact ⟨h1, h4.mpr rfl, h6 "an episode" rfl, h9 rfl⟩

/-- C7: a request to `/events.json` that omits `start` or `end` returns
HTTP 400 with the body `\x7berror: "Start and end query parameters are
required"\x7d`, leaves the cache untouched, and never runs the storage
scan (the cache is not consulted either: the parameter check precedes the
`cache.get` call in the handler). -/
theorem missing_params_bad_request (qs qe : Option String) (c : Cache)
    (rows : List Row) (h : qs = none ∨ qe = none) :
    handleEvents qs qe c rows =
      { response := .badRequest "Start and end query parameters are required",
        cache := c, storageAccessed := false, rowsAfter := rows } ∧
    (handleEvents qs qe c rows).response.status = 400 := by
  have hcond : (truthyParam qs && truthyParam qe) = false := by
    cases h with
    | inl h => subst h; rfl
    | inr h => subst h; simp [truthyParam]
  have heq : handleEvents qs qe c rows =
      { response := .badRequest "Start and end query parameters are required",
        cache := c, storageAccessed := false, rowsAfter := rows } := by
    simp [handleEvents, hcond]
  exact ⟨heq, by rw [heq]; rfl⟩

theorem missing_params_bad_request_witness :
    handleEvents none (some "2024-01-01") [] [] =
      { response := .badRequest "Start and end query parameters are required",
        cache := [], storageAccessed := false, rowsAfter := [] } ∧
    (handleEvents none (some "2024-01-01") [] []).response.status = 400 :=
  missing_params_bad_request none (some "2024-01-01") [] [] (Or.inl rfl)

/-- C8: a parse failure on the fetched document aborts the whole pass for
that source before any reconciliation: the error is caught by the
try/catch and the stored event set is unchanged, with no partial
results. -/
theorem parse_failure_no_writes (net : Nat → Except String String)
    (url label : String) (parse : String → Except String (List VEvent))
    (s : Storage) (doc pe : String)
    (hf : fetchWithRetries net url 3 = .ok doc)
    (hp : parse doc = .error pe) :
    fetchAndStoreEvents net url label parse s = s := by
  unfold fetchAndStoreEvents
  rw [hf]
  show ingestDocument label parse doc s = s
  unfold ingestDocument
  rw [hp]

theorem parse_failure_no_writes_witness :
    fetchAndStoreEvents (fun _ => .ok "NOT AN ICS DOCUMENT") "u" "Sonarr"
        (fun _ => .error "ParseError") ⟨[], 1⟩ = ⟨[], 1⟩ :=
  parse_failure_no_writes (fun _ => .ok "NOT AN ICS DOCUMENT") "u" "Sonarr"
    (fun _ => .error "ParseError") ⟨[], 1⟩ "NOT AN ICS DOCUMENT" "ParseError"
    (fetchAttempt_ok (fun _ => .ok "NOT AN ICS DOCUMENT") "u" 3 1
      "NOT AN ICS DOCUMENT" rfl) rfl

/-- C10: an ingestion pass over a batch with zero event components leaves
storage unchanged (no insert, update, or other mutation) and finalizes the
prepared statements through the post-loop zero-pending-operations branch
(first Bool true), not through a callback (second Bool false). -/
theorem empty_batch_finalizes_no_mutation (s : Storage) :
    reconcilePass s [] = (s, true, false) ∧ reconcile s [] = s :=
  ⟨rfl, rfl⟩

/-- C6: the fetcher tries the upstream up to 3 times.  If attempts 1 and 2
fail and attempt 3 succeeds, the pass completes using the third response.
If all three attempts fail, `fetchWithRetries` throws, the caller catches
and logs, storage is unchanged, the other source's pass (the second leg of
`startupRun`) proceeds as if alone, and `/events.json` answers from the
unchanged storage exactly as before. -/
theorem fetch_retry_resilience (net : Nat → Except String String)
    (url label : String) (parse : String → Except String (List VEvent))
    (s : Storage) (e1 e2 : String)
    (h1 : net 1 = .error e1) (h2 : net 2 = .error e2) :
    (∀ d, net 3 = .ok d →
      fetchWithRetries net url 3 = .ok d ∧
      fetchAndStoreEvents net url label parse s
        = ingestDocument label parse d s) ∧
    (∀ e3, net 3 = .error e3 →
      (∃ msg, fetchWithRetries net url 3 = .error msg) ∧
      fetchAndStoreEvents net url label parse s = s ∧
      (∀ netR urlR, startupRun net netR url urlR parse s
          = fetchAndStoreEvents netR urlR "Radarr" parse s) ∧
      (∀ qs qe c,
        handleEvents qs qe c (fetchAndStoreEvents net url label parse s).rows
          = handleEvents qs qe c s.rows)) := by
  have hw : fetchWithRetries net url 3 = fetchAttempt net url 3 3 := by
    show fetchAttempt net url 3 1 = _
    rw [fetchAttempt_retry net url 3 1 e1 h1 (by omega),
      fetchAttempt_retry net url 3 2 e2 h2 (by omega)]
  constructor
  · intro d h3
    have hok : fetchWithRetries net url 3 = .ok d := by
      rw [hw]
      exact fetchAttempt_ok net url 3 3 d h3
    refine ⟨hok, ?_⟩
    unfold fetchAndStoreEvents
    rw [hok]
  · intro e3 h3
    have herr : fetchWithRetries net url 3
        = .error ("Failed to fetch data from " ++ url ++ " after "
            ++ toString 3 ++ " attempts") := by
      rw [hw]
      exact fetchAttempt_exhaust net url 3 3 e3 h3 (by omega)
    have haux : ∀ lab, fetchAndStoreEvents net url lab parse s = s := by
      intro lab
      unfold fetchAndStoreEvents
      rw [herr]
    refine ⟨⟨_, herr⟩, haux label, ?_, ?_⟩
    · intro netR urlR
      unfold startupRun
      rw [haux "Sonarr"]
    · intro qs qe c
      rw [haux label]

theorem fetch_retry_resilience_witness :
    fetchWithRetries
        (fun n => if n = 3 then .ok "ICSDATA" else .error "ECONNREFUSED")
        "u" 3 = .ok "ICSDATA" ∧
    fetchAndStoreEvents (fun _ => .error "ECONNREFUSED") "u" "Sonarr"
        (fun _ => .ok []) ⟨[], 1⟩ = ⟨[], 1⟩ :=
  ⟨((fetch_retry_resilience
      (fun n => if n = 3 then .ok "ICSDATA" else .error "ECONNREFUSED")
      "u" "Sonarr" (fun _ => .ok []) ⟨[], 1⟩ "ECONNREFUSED" "ECONNREFUSED"
      rfl rfl).1 "ICSDATA" rfl).1,
   ((fetch_retry_resilience (fun _ => .error "ECONNREFUSED")
      "u" "Sonarr" (fun _ => .ok []) ⟨[], 1⟩ "ECONNREFUSED" "ECONNREFUSED"
      rfl rfl).2 "ECONNREFUSED" rfl).2.1⟩

/-- C4: with both parameters non-falsy, a second identical query issued
while the first query's cache entry is still live returns the first
query's response unchanged, independent of the storage contents at the
time of the second query, without touching storage and without modifying
the cache.  TTL is modelled by entry presence: an entry exists in the
cache exactly while its TTL has not expired. -/
theorem cached_query_ignores_storage (qs qe : String)
    (hs : qs ≠ "") (he : qe ≠ "") (c : Cache) (rows1 rows2 : List Row) :
    handleEvents (some qs) (some qe)
        (handleEvents (some qs) (some qe) c rows1).cache rows2 =
      { response := (handleEvents (some qs) (some qe) c rows1).response,
        cache := (handleEvents (some qs) (some qe) c rows1).cache,
        storageAccessed := false, rowsAfter := rows2 } := by
  cases hc : cacheGet c (qs ++ "_" ++ qe) with
  | some v =>
      rw [handleEvents_hit qs qe c rows1 v hs he hc]
      exact handleEvents_hit qs qe c rows2 v hs he hc
  | none =>
      rw [handleEvents_miss qs qe c rows1 hs he hc]
      exact handleEvents_hit qs qe _ rows2 _ hs he
        (cacheGet_cacheSet_self c (qs ++ "_" ++ qe) (queryScan rows1 qs qe))

theorem cached_query_ignores_storage_witness :
    handleEvents (some "2024-01-01") (some "2024-12-31")
        (handleEvents (some "2024-01-01") (some "2024-12-31") []
          [⟨1, "t", "2024-06-01", "2024-06-02", "red", "", ""⟩]).cache [] =
      { response := (handleEvents (some "2024-01-01") (some "2024-12-31") []
          [⟨1, "t", "2024-06-01", "2024-06-02", "red", "", ""⟩]).response,
        cache := (handleEvents (some "2024-01-01") (some "2024-12-31") []
          [⟨1, "t", "2024-06-01", "2024-06-02", "red", "", ""⟩]).cache,
        storageAccessed := false, rowsAfter := [] } :=
  cached_query_ignores_storage "2024-01-01" "2024-12-31"
    (by decide) (by decide) []
    [⟨1, "t", "2024-06-01", "2024-06-02", "red", "", ""⟩] []

/-- C3 counterexample: the claim quantifies over queries with both bounds
present; with `start` present but equal to the empty string (an empty
`start=` query parameter), the handler takes the falsy-parameter branch
and returns 400, not the records in range, even though the cache has no
entry for the pair and a stored record lies in the range. -/
theorem rangeQuery_counterexample :
    cacheGet [] ("" ++ "_" ++ "2024-12-31") = none ∧
    queryScan [⟨1, "t", "2024-06-01", "2024-06-02", "green", "", ""⟩]
        "" "2024-12-31"
      = [⟨1, "t", "2024-06-01", "2024-06-02", "green", "", ""⟩] ∧
    (handleEvents (some "") (some "2024-12-31") []
        [⟨1, "t", "2024-06-01", "2024-06-02", "green", "", ""⟩]).response
      ≠ .ok (queryScan [⟨1, "t", "2024-06-01", "2024-06-02", "green", "", ""⟩]
          "" "2024-12-31") := by
  decide

/-- C3 (amended): for every query whose two bounds are present and
non-empty and with no cache entry for the pair, the handler returns
exactly the stored records with `start >= rangeStart` and
`end <= rangeEnd` under lexicographic string comparison. -/
theorem rangeQuery_cache_miss_filter (qs qe : String) (c : Cache)
    (rows : List Row) (hs : qs ≠ "") (he : qe ≠ "")
    (hmiss : cacheGet c (qs ++ "_" ++ qe) = none) :
    (handleEvents (some qs) (some qe) c rows).response
      = .ok (queryScan rows qs qe) ∧
    ∀ r, r ∈ queryScan rows qs qe ↔
      r ∈ rows ∧ strLe qs r.start = true ∧ strLe r.«end» qe = true := by
  refine ⟨?_, ?_⟩
  · rw [handleEvents_miss qs qe c rows hs he hmiss]
  · intro r
    simp [queryScan, List.mem_filter, and_assoc]

theorem rangeQuery_cache_miss_filter_witness :
    ((handleEvents (some "2024-01-01T00:00") (some "2024-01-01T23:59") []
        [⟨1, "[Sonarr] E", "2024-01-01T10:00", "2024-01-01T11:00",
          "green", "", ""⟩]).response
      = .ok (queryScan
          [⟨1, "[Sonarr] E", "2024-01-01T10:00", "2024-01-01T11:00",
            "green", "", ""⟩]
          "2024-01-01T00:00" "2024-01-01T23:59")) ∧
    queryScan
        [⟨1, "[Sonarr] E", "2024-01-01T10:00", "2024-01-01T11:00",
          "green", "", ""⟩]
        "2024-01-01T00:00" "2024-01-01T23:59"
      = [⟨1, "[Sonarr] E", "2024-01-01T10:00", "2024-01-01T11:00",
          "green", "", ""⟩] ∧
    ((handleEvents (some "2024-01-01T00:00") (some "2024-01-01T09:00") []
        [⟨1, "[Sonarr] E", "2024-01-01T10:00", "2024-01-01T11:00",
          "green", "", ""⟩]).response
      = .ok (queryScan
          [⟨1, "[Sonarr] E", "2024-01-01T10:00", "2024-01-01T11:00",
            "green", "", ""⟩]
          "2024-01-01T00:00" "2024-01-01T09:00")) ∧
    queryScan
        [⟨1, "[Sonarr] E", "2024-01-01T10:00", "2024-01-01T11:00",
          "green", "", ""⟩]
        "2024-01-01T00:00" "2024-01-01T09:00"
      = [] :=
  ⟨(rangeQuery_cache_miss_filter "2024-01-01T00:00" "2024-01-01T23:59" []
      [⟨1, "[Sonarr] E", "2024-01-01T10:00", "2024-01-01T11:00",
        "green", "", ""⟩] (by decide) (by decide) rfl).1,
   by decide,
   (rangeQuery_cache_miss_filter "2024-01-01T00:00" "2024-01-01T09:00" []
      [⟨1, "[Sonarr] E", "2024-01-01T10:00", "2024-01-01T11:00",
        "green", "", ""⟩] (by decide) (by decide) rfl).1,
   by decide⟩

/-- C1 counterexample: the `forEach` dispatches every lookup of the batch
before any callback write runs, so on a batch holding two records with the
same identity key, absent from storage, both lookups miss and both
callbacks INSERT: two duplicate rows.  A second run of the same batch then
finds a row for each record and only updates, so the duplicate persists:
at-most-one-stored-record-per-identity-key fails after repeated ingestion
runs of this batch. -/
theorem reconcileBatch_duplicate_counterexample :
    (reconcileBatch ⟨[], 1⟩
        [⟨"[Sonarr] A", "2024-01-01T10:00", "2024-01-01T11:00",
          "red", "", ""⟩,
         ⟨"[Sonarr] A", "2024-01-01T10:00", "2024-01-01T11:00",
          "red", "", ""⟩]).rows
      = [⟨1, "[Sonarr] A", "2024-01-01T10:00", "2024-01-01T11:00",
          "red", "", ""⟩,
         ⟨2, "[Sonarr] A", "2024-01-01T10:00", "2024-01-01T11:00",
          "red", "", ""⟩] ∧
    (reconcileBatch
        (reconcileBatch ⟨[], 1⟩
          [⟨"[Sonarr] A", "2024-01-01T10:00", "2024-01-01T11:00",
            "red", "", ""⟩,
           ⟨"[Sonarr] A", "2024-01-01T10:00", "2024-01-01T11:00",
            "red", "", ""⟩])
        [⟨"[Sonarr] A", "2024-01-01T10:00", "2024-01-01T11:00",
          "red", "", ""⟩,
         ⟨"[Sonarr] A", "2024-01-01T10:00", "2024-01-01T11:00",
          "red", "", ""⟩]).rows
      = [⟨1, "[Sonarr] A", "2024-01-01T10:00", "2024-01-01T11:00",
          "red", "", ""⟩,
         ⟨2, "[Sonarr] A", "2024-01-01T10:00", "2024-01-01T11:00",
          "red", "", ""⟩] ∧
    ¬ DupFreeKeys
        (reconcileBatch
          (reconcileBatch ⟨[], 1⟩
            [⟨"[Sonarr] A", "2024-01-01T10:00", "2024-01-01T11:00",
              "red", "", ""⟩,
             ⟨"[Sonarr] A", "2024-01-01T10:00", "2024-01-01T11:00",
              "red", "", ""⟩])
          [⟨"[Sonarr] A", "2024-01-01T10:00", "2024-01-01T11:00",
            "red", "", ""⟩,
           ⟨"[Sonarr] A", "2024-01-01T10:00", "2024-01-01T11:00",
            "red", "", ""⟩]).rows := by
  refine ⟨by decide, by decide, ?_⟩
  intro h
  rw [show (reconcileBatch
      (reconcileBatch ⟨[], 1⟩
        [⟨"[Sonarr] A", "2024-01-01T10:00", "2024-01-01T11:00",
          "red", "", ""⟩,
         ⟨"[Sonarr] A", "2024-01-01T10:00", "2024-01-01T11:00",
          "red", "", ""⟩])
      [⟨"[Sonarr] A", "2024-01-01T10:00", "2024-01-01T11:00",
        "red", "", ""⟩,
       ⟨"[Sonarr] A", "2024-01-01T10:00", "2024-01-01T11:00",
        "red", "", ""⟩]).rows
    = [⟨1, "[Sonarr] A", "2024-01-01T10:00", "2024-01-01T11:00",
        "red", "", ""⟩,
       ⟨2, "[Sonarr] A", "2024-01-01T10:00", "2024-01-01T11:00",
        "red", "", ""⟩] from by decide] at h
  unfold DupFreeKeys at h
  rw [List.pairwise_cons] at h
  exact h.1 _ (List.mem_cons_self _ _) rfl

/-- C1 (amended): running the dispatch-ordered pass a second time on the
same unchanged batch inserts no additional rows, for every batch; and for
a batch whose records have pairwise-distinct identity keys the pass
preserves at-most-one-stored-record-per-identity-key, so repeated
ingestion of such batches starting from duplicate-free storage never
creates duplicates. -/
theorem reconcileBatch_repeat_no_new_rows (s : Storage)
    (b : List EventRecord) :
    (reconcileBatch (reconcileBatch s b) b).rows.length
      = (reconcileBatch s b).rows.length ∧
    ((b.Pairwise fun e1 e2 => eventKey e1 ≠ eventKey e2) →
      DupFreeKeys s.rows → DupFreeKeys (reconcileBatch s b).rows) :=
  ⟨reconcileBatch_length_of_all_present (reconcileBatch s b) b
      (fun ev hm => reconcileBatch_keys_present s b ev hm),
   fun hb hs => reconcileBatch_dupFree s b hb hs⟩

theorem reconcileBatch_repeat_no_new_rows_witness :
    (reconcileBatch
        (reconcileBatch ⟨[], 1⟩
          [⟨"[Sonarr] A", "2024-01-01T10:00", "2024-01-01T11:00",
            "green", "", ""⟩])
        [⟨"[Sonarr] A", "2024-01-01T10:00", "2024-01-01T11:00",
          "green", "", ""⟩]).rows.length
      = (reconcileBatch ⟨[], 1⟩
          [⟨"[Sonarr] A", "2024-01-01T10:00", "2024-01-01T11:00",
            "green", "", ""⟩]).rows.length ∧
    DupFreeKeys (reconcileBatch ⟨[], 1⟩
        [⟨"[Sonarr] A", "2024-01-01T10:00", "2024-01-01T11:00",
          "green", "", ""⟩]).rows :=
  ⟨(reconcileBatch_repeat_no_new_rows ⟨[], 1⟩
      [⟨"[Sonarr] A", "2024-01-01T10:00", "2024-01-01T11:00",
        "green", "", ""⟩]).1,
   (reconcileBatch_repeat_no_new_rows ⟨[], 1⟩
      [⟨"[Sonarr] A", "2024-01-01T10:00", "2024-01-01T11:00",
        "green", "", ""⟩]).2
     (List.pairwise_singleton _ _) List.Pairwise.nil⟩

/-- C2: when the lookup finds a stored row matching the batch record's
identity key, the pass creates no new row (row count and AUTOINCREMENT
counter unchanged) and rewrites only the `color` column: every stored row
keeps its id, title, start, end, description and location, rows matching
the key get the record's color and all others keep theirs.  With a stored
red row and a re-ingested CONFIRMED event this flips the row to green in
place (see the witness). -/
theorem reconcile_update_only_color (s : Storage) (ev : EventRecord)
    (r : Row) (h : dbGet s.rows ev.title ev.start ev.«end» = some r) :
    (reconcileStep s ev).rows.length = s.rows.length ∧
    (reconcileStep s ev).nextId = s.nextId ∧
    ∀ (i : Nat) (r0 : Row), s.rows[i]? = some r0 →
      ∃ r1, (reconcileStep s ev).rows[i]? = some r1 ∧
        sameExceptColor r1 r0 ∧
        r1.color = (if matchesKey r0 ev.title ev.start ev.«end»
          then ev.color else r0.color) := by
  have hrows : (reconcileStep s ev).rows
      = runUpdate s.rows ev.color ev.title ev.start ev.«end» := by
    simp only [reconcileStep, h]
  have hnext : (reconcileStep s ev).nextId = s.nextId := by
    simp only [reconcileStep, h]
  refine ⟨?_, hnext, ?_⟩
  · rw [hrows]
    exact runUpdate_length s.rows ev.color ev.title ev.start ev.«end»
  intro i r0 h0
  rw [hrows, runUpdate_getElem, h0]
  refine ⟨_, rfl, ?_, ?_⟩
  · by_cases hm : matchesKey r0 ev.title ev.start ev.«end» = true <;>
      simp [hm, sameExceptColor]
  · by_cases hm : matchesKey r0 ev.title ev.start ev.«end» = true <;>
      simp [hm]

theorem reconcile_update_only_color_witness :
    (reconcileStep
        ⟨[⟨7, "[Sonarr] A", "2024-01-01T10:00", "2024-01-01T11:00",
          "red", "d", "l"⟩], 8⟩
        ⟨"[Sonarr] A", "2024-01-01T10:00", "2024-01-01T11:00",
          "green", "d", "l"⟩).rows.length
      = (⟨[⟨7, "[Sonarr] A", "2024-01-01T10:00", "2024-01-01T11:00",
          "red", "d", "l"⟩], 8⟩ : Storage).rows.length ∧
    (reconcileStep
        ⟨[⟨7, "[Sonarr] A", "2024-01-01T10:00", "2024-01-01T11:00",
          "red", "d", "l"⟩], 8⟩
        ⟨"[Sonarr] A", "2024-01-01T10:00", "2024-01-01T11:00",
          "green", "d", "l"⟩).nextId = 8 ∧
    (reconcileStep
        ⟨[⟨7, "[Sonarr] A", "2024-01-01T10:00", "2024-01-01T11:00",
          "red", "d", "l"⟩], 8⟩
        ⟨"[Sonarr] A", "2024-01-01T10:00", "2024-01-01T11:00",
          "green", "d", "l"⟩).rows
      = [⟨7, "[Sonarr] A", "2024-01-01T10:00", "2024-01-01T11:00",
          "green", "d", "l"⟩] :=
  ⟨(reconcile_update_only_color
      ⟨[⟨7, "[Sonarr] A", "2024-01-01T10:00", "2024-01-01T11:00",
        "red", "d", "l"⟩], 8⟩
      ⟨"[Sonarr] A", "2024-01-01T10:00", "2024-01-01T11:00",
        "green", "d", "l"⟩
      ⟨7, "[Sonarr] A", "2024-01-01T10:00", "2024-01-01T11:00",
        "red", "d", "l"⟩ (by decide)).1,
   (reconcile_update_only_color
      ⟨[⟨7, "[Sonarr] A", "2024-01-01T10:00", "2024-01-01T11:00",
        "red", "d", "l"⟩], 8⟩
      ⟨"[Sonarr] A", "2024-01-01T10:00", "2024-01-01T11:00",
        "green", "d", "l"⟩
      ⟨7, "[Sonarr] A", "2024-01-01T10:00", "2024-01-01T11:00",
        "red", "d", "l"⟩ (by decide)).2.1,
   by decide⟩

/-- C9: no operation deletes a stored record.  Every row present before an
ingestion pass is still present at the same position afterwards, with id,
title, start, end, description and location intact (only color may have
been rewritten); and the read endpoint leaves the stored rows unchanged on
every request. -/
theorem stored_rows_never_deleted (s : Storage) (b : List EventRecord)
    (i : Nat) (r : Row) (h : s.rows[i]? = some r) :
    (∃ r', (reconcile s b).rows[i]? = some r' ∧ sameExceptColor r' r) ∧
    (∀ qs qe c rows, (handleEvents qs qe c rows).rowsAfter = rows) :=
  ⟨reconcile_preserves s b i r h,
   fun qs qe c rows => handleEvents_rowsAfter qs qe c rows⟩

theorem stored_rows_never_deleted_witness :
    (∃ r', (reconcile
        ⟨[⟨1, "[Radarr] M", "2024-02-01", "2024-02-02", "red", "", ""⟩], 2⟩
        [⟨"[Sonarr] B", "2024-03-01", "2024-03-02",
          "green", "", ""⟩]).rows[0]? = some r' ∧
      sameExceptColor r'
        ⟨1, "[Radarr] M", "2024-02-01", "2024-02-02", "red", "", ""⟩) ∧
    (∀ qs qe c rows, (handleEvents qs qe c rows).rowsAfter = rows) :=
  stored_rows_never_deleted
    ⟨[⟨1, "[Radarr] M", "2024-02-01", "2024-02-02", "red", "", ""⟩], 2⟩
    [⟨"[Sonarr] B", "2024-03-01", "2024-03-02", "green", "", ""⟩]
    0 ⟨1, "[Radarr] M", "2024-02-01", "2024-02-02", "red", "", ""⟩ rfl

end Calendarr
